import Mathlib

/-!
# Verification of the AIBTCC-MYSQL ledger core

Shallow embedding of `src/merkleTree.js` and `src/blockchain.js` of the
AIBTCC-MYSQL repository, together with theorems settling the frozen claims
about the natural-language specification of that code.

Modelling conventions:

* SHA-256 (`crypto.createHash("sha256")...digest("hex")`) is an external
  primitive; every definition is parameterised by an abstract digest
  function `H : String → String`.  Closed evaluations instantiate `H` with
  the injective stand-in `modelHash` below.
* `elliptic`'s `keyFromPublic` / `verify` are external primitives; they are
  parameterised as `kOk : String → Bool` (does `keyFromPublic` succeed) and
  `vf : String → String → String → Bool` (public key, message digest,
  signature).  Closed evaluations use the stand-ins `modelKeyOk` /
  `modelVerify`.
* JavaScript string concatenation with `null` yields the text `"null"`;
  nullable strings are `Option String` rendered through `jsStr`.
* JavaScript exceptions become `Except String`.
* The MySQL gateway is modelled by passing the relevant rows in and out
  explicitly: an `INSERT` appends a row, a `SELECT` is a parameter holding
  the rows the query would return.
-/

namespace AIBTCC

/-- Injective executable stand-in for the opaque SHA-256 hex digest used by
`Node.hash` in `merkleTree.js`; used only to instantiate closed
evaluations. -/
def modelHash (s : String) : String := "#" ++ s

/-- JavaScript rendering of a nullable string when concatenated with `+`:
`null` prints as `"null"`. -/
def jsStr : Option String → String
  | none => "null"
  | some s => s

/-- JavaScript truthiness of a nullable string: `null` and `""` are falsy. -/
def jsTruthy : Option String → Bool
  | none => false
  | some s => s ≠ ""

/-! ## Merkle tree (`src/merkleTree.js`) -/

/-- `class Node` of `merkleTree.js`: left/right children (nullable), hash
`value`, and the `isCopied` padding flag. -/
inductive JsNode : Type where
  | mk : Option JsNode → Option JsNode → String → Bool → JsNode

/-- `node.left`. -/
def JsNode.left : JsNode → Option JsNode
  | .mk l _ _ _ => l

/-- `node.right`. -/
def JsNode.right : JsNode → Option JsNode
  | .mk _ r _ _ => r

/-- `node.value`. -/
def JsNode.value : JsNode → String
  | .mk _ _ v _ => v

/-- `node.isCopied`. -/
def JsNode.isCopied : JsNode → Bool
  | .mk _ _ _ c => c

/-- `Node.prototype.copy`: duplicate a node, marking it as copied. -/
def JsNode.copy (n : JsNode) : JsNode := .mk n.left n.right n.value true

namespace MerkleTree

/-- The leaf construction of `buildTree`:
`values.map((e) => new Node(null, null, Node.hash(e), false))`. -/
def leafNodes (H : String → String) (values : List String) : List JsNode :=
  values.map fun e => .mk none none (H e) false

/-- The odd-count padding step shared by `buildTree` and `buildTreeRec`:
`if (nodes.length % 2 === 1) nodes.push(nodes[nodes.length - 1].copy())`. -/
def padEven (nodes : List JsNode) : List JsNode :=
  if nodes.length % 2 = 1 then
    match nodes.getLast? with
    | some n => nodes ++ [n.copy]
    | none => nodes
  else nodes

/-- The pairing loop of `buildTreeRec`
(`for i += 2: new Node(left, right, Node.hash(left.value + right.value), false)`).
It is only invoked on even-length lists (after `padEven`). -/
def pairUp (H : String → String) : List JsNode → List JsNode
  | [] => []
  | [a] => [a]
  | a :: b :: rest =>
      JsNode.mk (some a) (some b) (H (a.value ++ b.value)) false :: pairUp H rest

/-- `buildTreeRec(nodes, depth)`, in gas form: the source checks
`depth > maxDepth` with `maxDepth = 10` before anything else, so the
recursion is driven by `gas = 11 - depth`; `gas = 0` is exactly the
`depth > 10` overflow branch. -/
def buildTreeRecGas (H : String → String) : List JsNode → Nat → Except String JsNode
  | _, 0 => .error "Max recursion depth exceeded"
  | nodes, g + 1 =>
    match nodes with
    | [] => .error "No nodes to process."
    | [n] => .ok n
    | ns => buildTreeRecGas H (pairUp H (padEven ns)) g

/-- `buildTreeRec(nodes, depth)` of `merkleTree.js` (throws as `Except`). -/
def buildTreeRec (H : String → String) (nodes : List JsNode) (depth : Nat) :
    Except String JsNode :=
  buildTreeRecGas H nodes (11 - depth)

/-- `buildTree(values)`: hash each value into a leaf, pad an odd leaf count
with a copy of the last leaf, then recurse from depth 0. -/
def buildTree (H : String → String) (values : List String) : Except String JsNode :=
  buildTreeRec H (padEven (leafNodes H values)) 0

/-- The `MerkleTree` constructor: rejects an empty input
(`"Cannot build Merkle Tree with no values."`), otherwise `buildTree`. -/
def mkTree (H : String → String) (values : List String) : Except String JsNode :=
  if values.length = 0 then .error "Cannot build Merkle Tree with no values."
  else buildTree H values

/-- `getRootHash()`: the root node's `value`. -/
def getRootHash (root : JsNode) : String := root.value

/-- One step of the `verifyProof` loop: a `null` sibling re-hashes the
running hash alone; otherwise the two digests are concatenated smaller
first (`hash < sibling ? hash+sibling : sibling+hash`) and hashed. -/
def combineStep (H : String → String) (hash : String) : Option String → String
  | none => H hash
  | some sibling =>
      if hash < sibling then H (hash ++ sibling) else H (sibling ++ hash)

/-- The running hash that `verifyProof` computes (and merely logs). -/
def verifyProofHash (H : String → String) (leaf : String)
    (proof : List (Option String)) : String :=
  proof.foldl (combineStep H) leaf

/-- `MerkleTree.verifyProof(leaf, proof, root)` exactly as written in
`merkleTree.js`: it folds the proof into a running hash, logs it, and then
executes `return root;` — the final statement returns the expected root
value itself, a `String`, never the result of an equality comparison. -/
def verifyProof (H : String → String) (leaf : String)
    (proof : List (Option String)) (root : String) : String :=
  let _hash := verifyProofHash H leaf proof
  root

/-- Modelled from the spec (§4.2): the equality-checking `verifyProof`
mandated by the specification, returning a boolean that is true iff the
folded hash equals `root`.  For comparison with `verifyProof` above. -/
def specVerifyProof (H : String → String) (leaf : String)
    (proof : List (Option String)) (root : String) : Bool :=
  verifyProofHash H leaf proof = root

/-- The `while (node)` descent of `getProof(leafValue)`: if a child's
`value` equals `leafValue`, push the sibling's value (or `null`) and move
into that child; otherwise push whatever children exist and stop. -/
def getProofGo (lv : String) : JsNode → List (Option String) → List (Option String)
  | .mk (some l) r _ _, proof =>
      if l.value = lv then getProofGo lv l (proof ++ [r.map JsNode.value])
      else
        match r with
        | some rn =>
            if rn.value = lv then getProofGo lv rn (proof ++ [some l.value])
            else proof ++ [some l.value, some rn.value]
        | none => proof ++ [some l.value]
  | .mk none (some rn) _ _, proof =>
      if rn.value = lv then getProofGo lv rn (proof ++ [none])
      else proof ++ [some rn.value]
  | .mk none none _ _, proof => proof

/-- `getProof(leafValue)`: run the descent from the root and throw
`"Leaf not found in the Merkle Tree"` only when the collected list is
empty. -/
def getProof (lv : String) (root : JsNode) : Except String (List (Option String)) :=
  let proof := getProofGo lv root []
  if proof.length = 0 then .error "Leaf not found in the Merkle Tree"
  else .ok proof

end MerkleTree

/-! ## Transactions (`src/blockchain.js`) -/

/-- In-memory `Transaction` object.  `toAddress` is always a string on the
code paths under study; `fromAddress`, `signature` and
`originTransactionHash` are nullable.  `amount` and `timestamp` are
JavaScript integers. -/
structure JsTransaction where
  fromAddress : Option String
  toAddress : String
  amount : Nat
  timestamp : Nat
  signature : Option String
  blockHash : String
  originTransactionHash : Option String
  hash : String
  deriving DecidableEq, Repr

namespace Transaction

/-- `calculateHash()`:
`Digest(fromAddress + toAddress + amount + originTransactionHash + timestamp)`
with JavaScript `null` rendering. -/
def calculateHash (H : String → String) (tx : JsTransaction) : String :=
  H (jsStr tx.fromAddress ++ tx.toAddress ++ toString tx.amount ++
     jsStr tx.originTransactionHash ++ toString tx.timestamp)

/-- The `Transaction` constructor: stores the fields and computes `hash`
via `calculateHash()`. -/
def mkTx (H : String → String) (fromAddress : Option String) (toAddress : String)
    (amount timestamp : Nat) (signature : Option String) (blockHash : String)
    (originTransactionHash : Option String) : JsTransaction :=
  let tx : JsTransaction :=
    { fromAddress, toAddress, amount, timestamp, signature, blockHash,
      originTransactionHash, hash := "" }
  { tx with hash := calculateHash H tx }

/-- `isValid()`: reward transactions (`fromAddress === null`) are valid; a
missing/empty signature throws; `keyFromPublic` failure throws (the
`catch` rethrows); otherwise the result is `key.verify(calculateHash(),
signature)`.  The stored `hash` field is never consulted. -/
def isValid (H : String → String) (kOk : String → Bool)
    (vf : String → String → String → Bool) (tx : JsTransaction) :
    Except String Bool :=
  let hashToVerify := calculateHash H tx
  match tx.fromAddress with
  | none => .ok true
  | some addr =>
    match tx.signature with
    | none => .error "Transaction signature is missing or invalid!"
    | some sig =>
      if sig = "" then .error "Transaction signature is missing or invalid!"
      else if kOk addr then .ok (vf addr hashToVerify sig)
      else .error "Transaction signature is invalid!"

/-- `verifyTransaction()`: throw iff the stored `hash` disagrees with the
recomputed digest. -/
def verifyTransaction (H : String → String) (tx : JsTransaction) :
    Except String Unit :=
  if tx.hash ≠ calculateHash H tx
  then .error "Transaction hash does not match expected hash!"
  else .ok ()

/-- A row of the `transactions` table. -/
structure TxRow where
  hash : String
  from_address : Option String
  to_address : String
  amount : Nat
  timestamp : Nat
  signature : Option String
  block_hash : String
  origin_transaction_hash : Option String
  deriving DecidableEq, Repr

/-- The row `Transaction.save` inserts. -/
def rowOf (tx : JsTransaction) : TxRow :=
  { hash := tx.hash, from_address := tx.fromAddress, to_address := tx.toAddress,
    amount := tx.amount, timestamp := tx.timestamp, signature := tx.signature,
    block_hash := tx.blockHash, origin_transaction_hash := tx.originTransactionHash }

/-- `Transaction.save()`: `this.verifyTransaction()` runs synchronously
before the `INSERT` is issued; only when it passes is the row appended to
the `transactions` table. -/
def save (H : String → String) (tx : JsTransaction) (transactionsTable : List TxRow) :
    Except String (List TxRow) := do
  let () ← verifyTransaction H tx
  .ok (transactionsTable ++ [rowOf tx])

/-- `Transaction.load(hash)` applied to the row the `SELECT` returned:
rebuild through the constructor, overwrite `hash` with the stored one,
then `verifyTransaction()`. -/
def loadRow (H : String → String) (row : TxRow) : Except String JsTransaction := do
  let tx := mkTx H row.from_address row.to_address row.amount row.timestamp
      row.signature row.block_hash row.origin_transaction_hash
  let tx := { tx with hash := row.hash }
  let () ← verifyTransaction H tx
  .ok tx

end Transaction

/-! ## Blocks (`src/blockchain.js`) -/

/-- In-memory `Block` object. -/
structure JsBlock where
  index : Nat
  previousHash : String
  timestamp : Nat
  transactions : List JsTransaction
  difficulty : Nat
  merkleRoot : String
  nonce : Nat
  originTransactionHash : Option String
  hash : String
  deriving DecidableEq, Repr

namespace Block

/-- JSON value of a nullable string field (no escaping is needed for the
character sets used here). -/
def jsonStr : Option String → String
  | none => "null"
  | some s => "\"" ++ s ++ "\""

/-- `JSON.stringify` of one transaction with `blockHash` destructured away:
the remaining fields serialise in constructor-assignment order. -/
def jsonTx (tx : JsTransaction) : String :=
  "\x7b\"fromAddress\":" ++ jsonStr tx.fromAddress ++
  ",\"toAddress\":\"" ++ tx.toAddress ++
  "\",\"amount\":" ++ toString tx.amount ++
  ",\"timestamp\":" ++ toString tx.timestamp ++
  ",\"signature\":" ++ jsonStr tx.signature ++
  ",\"originTransactionHash\":" ++ jsonStr tx.originTransactionHash ++
  ",\"hash\":\"" ++ tx.hash ++ "\"\x7d"

/-- `JSON.stringify` of the mapped transaction array in
`Block.calculateHash`. -/
def jsonTxs (txs : List JsTransaction) : String :=
  "[" ++ String.intercalate "," (txs.map jsonTx) ++ "]"

/-- `calculateMerkleRoot()`: 64 zeros for an empty transaction list,
otherwise the root of the Merkle tree over the transactions' hashes
(`buildTree` may throw). -/
def calculateMerkleRoot (H : String → String) (txs : List JsTransaction) :
    Except String String :=
  if txs.length = 0 then .ok (String.mk (List.replicate 64 '0'))
  else (MerkleTree.mkTree H (txs.map JsTransaction.hash)).map MerkleTree.getRootHash

/-- `calculateLastOriginTransactionHash()`: the last transaction's
`originTransactionHash` if truthy, else the second-to-last transaction's
(if it exists), else `null`. -/
def calculateLastOriginTransactionHash (txs : List JsTransaction) : Option String :=
  match txs.getLast? with
  | none => none
  | some lastTx =>
    if jsTruthy lastTx.originTransactionHash then lastTx.originTransactionHash
    else
      match txs.dropLast.getLast? with
      | some secondToLast => secondToLast.originTransactionHash
      | none => none

/-- `Block.calculateHash()`:
`Digest(previousHash + timestamp + merkleRoot + nonce + originTransactionHash + JSON.stringify(txs))`. -/
def calculateHash (H : String → String) (b : JsBlock) : String :=
  H (b.previousHash ++ toString b.timestamp ++ b.merkleRoot ++
     toString b.nonce ++ jsStr b.originTransactionHash ++ jsonTxs b.transactions)

/-- The `Block` constructor: computes `merkleRoot` (which may throw), sets
`nonce = 0`, computes `originTransactionHash` via
`calculateLastOriginTransactionHash()` and finally `hash` via
`calculateHash()`. -/
def mkBlock (H : String → String) (index : Nat) (previousHash : String)
    (timestamp : Nat) (transactions : List JsTransaction) (difficulty : Nat) :
    Except String JsBlock := do
  let merkleRoot ← calculateMerkleRoot H transactions
  let b : JsBlock :=
    { index, previousHash, timestamp, transactions, difficulty, merkleRoot,
      nonce := 0,
      originTransactionHash := calculateLastOriginTransactionHash transactions,
      hash := "" }
  .ok { b with hash := calculateHash H b }

/-- `str.substring(0, d)`. -/
def substring0 (s : String) (d : Nat) : String := String.mk (s.data.take d)

/-- `Array(d + 1).join("0")`: `d` zero characters. -/
def zeroTarget (d : Nat) : String := String.mk (List.replicate d '0')

/-- `mineBlock(difficulty)`: while the hash's `difficulty`-character prefix
is not all zeros, increment `nonce` and recompute `hash`.  The JavaScript
loop is unbounded; `fuel` bounds the search here, `none` standing for a
search that has not yet terminated. -/
def mineBlockGo (H : String → String) (d : Nat) : Nat → JsBlock → Option JsBlock
  | fuel, b =>
    if substring0 b.hash d = zeroTarget d then some b
    else
      match fuel with
      | 0 => none
      | f + 1 =>
        let b' := { b with nonce := b.nonce + 1 }
        mineBlockGo H d f { b' with hash := calculateHash H b' }

/-- A row of the `blocks` table (`save` writes `origin_transaction_hash`;
`load` reads the starred columns only: hash, previous_hash, timestamp,
nonce, difficulty, merkle_root, index — never `origin_transaction_hash`). -/
structure BlockRow where
  hash : String
  previous_hash : String
  timestamp : Nat
  nonce : Nat
  difficulty : Nat
  merkle_root : String
  index : Nat
  origin_transaction_hash : Option String
  deriving DecidableEq, Repr

/-- The row `Block.save` inserts into `blocks`. -/
def rowOf (b : JsBlock) : BlockRow :=
  { hash := b.hash, previous_hash := b.previousHash, timestamp := b.timestamp,
    nonce := b.nonce, difficulty := b.difficulty, merkle_root := b.merkleRoot,
    index := b.index, origin_transaction_hash := b.originTransactionHash }

/-- The transaction-loading loop inside `Block.load`: each listed row is
rebuilt by `Transaction.load` (tamper check included), then `isValid()` is
consulted; an invalid transaction rejects the whole block. -/
def loadTxsGo (H : String → String) (kOk : String → Bool)
    (vf : String → String → String → Bool) (blockIndex : Nat) :
    List Transaction.TxRow → Except String (List JsTransaction)
  | [] => .ok []
  | row :: rest => do
    let tx ← Transaction.loadRow H row
    let ok ← Transaction.isValid H kOk vf tx
    if !ok then .error ("Invalid transaction in block " ++ toString blockIndex)
    else do
      let txs ← loadTxsGo H kOk vf blockIndex rest
      .ok (tx :: txs)

/-- `Block.load(hash)` applied to the rows returned by the two `SELECT`s:
construct `new Block(index, previous_hash, timestamp, [], difficulty)`
(whose constructor leaves `originTransactionHash = null` for the empty
list), overwrite `hash`, `nonce` and `merkleRoot` from the row — but not
`originTransactionHash` — push the loaded transactions, then check the
stored hash and Merkle root against recomputation. -/
def load (H : String → String) (kOk : String → Bool)
    (vf : String → String → String → Bool) (row : BlockRow)
    (txRows : List Transaction.TxRow) : Except String JsBlock := do
  let b ← mkBlock H row.index row.previous_hash row.timestamp [] row.difficulty
  let b := { b with hash := row.hash, nonce := row.nonce,
                    merkleRoot := row.merkle_root }
  let txs ← loadTxsGo H kOk vf b.index txRows
  let b := { b with transactions := txs }
  if b.hash ≠ calculateHash H b then
    .error ("Invalid block hash for block " ++ toString b.index)
  else do
    let recomputedRoot ← calculateMerkleRoot H b.transactions
    if b.merkleRoot ≠ recomputedRoot then
      .error ("Invalid Merkle root for block " ++ toString b.index)
    else .ok b

end Block

/-! ## The database gateway and `Block.save` -/

/-- A row of `merkle_nodes`: block hash, level, index, node value. -/
abbrev MerkleNodeRow := String × Nat × Nat × String

/-- A row of `merkle_proof_paths`: block hash, transaction hash, proof JSON. -/
abbrev MerkleProofRow := String × String × String

/-- The MySQL tables touched by the ledger engine. -/
structure Db where
  blocks : List Block.BlockRow
  transactions : List Transaction.TxRow
  merkleNodes : List MerkleNodeRow
  merkleProofPaths : List MerkleProofRow
  pendingTransactions : List Transaction.TxRow
  addressBalances : List (String × Int)
  deriving DecidableEq, Repr

namespace Block

/-- `MerkleTree.saveNodesToDatabase(blockHash, node, level, index)`: insert
the node's row, then — only when `left` is non-null — recurse into both
children (a null right child contributes nothing). -/
def merkleNodeRows (bh : String) : JsNode → Nat → Nat → List MerkleNodeRow
  | .mk (some ln) r v _, level, idx =>
      (bh, level, idx, v) ::
        (merkleNodeRows bh ln (level + 1) (2 * idx) ++
          match r with
          | some rn => merkleNodeRows bh rn (level + 1) (2 * idx + 1)
          | none => [])
  | .mk none _ v _, level, idx => [(bh, level, idx, v)]

/-- `JSON.stringify` of a proof path (an array of strings and nulls). -/
def proofJson (proof : List (Option String)) : String :=
  "[" ++ String.intercalate "," (proof.map jsonStr) ++ "]"

/-- The `for (const tx of this.transactions)` proof-storing loop of
`Block.save`: one `merkle_proof_paths` row per transaction hash
(`getProof` may throw). -/
def proofRowsGo (bh : String) (root : JsNode) :
    List String → Except String (List MerkleProofRow)
  | [] => .ok []
  | h :: rest => do
    let proof ← MerkleTree.getProof h root
    let rows ← proofRowsGo bh root rest
    .ok ((bh, h, proofJson proof) :: rows)

/-- `updateAddressBalance`: `INSERT ... ON DUPLICATE KEY UPDATE
balance = balance + ?`. -/
def upsertBalance (tbl : List (String × Int)) (addr : String) (amt : Int) :
    List (String × Int) :=
  if tbl.any (fun p => p.1 = addr) then
    tbl.map fun p => if p.1 = addr then (p.1, p.2 + amt) else p
  else tbl ++ [(addr, amt)]

/-- `updateBalances()`: debit each sender, credit each receiver. -/
def updateBalances (tbl : List (String × Int)) (txs : List JsTransaction) :
    List (String × Int) :=
  txs.foldl (fun acc tx =>
    let acc := match tx.fromAddress with
      | some a => upsertBalance acc a (-(tx.amount : Int))
      | none => acc
    upsertBalance acc tx.toAddress (tx.amount : Int)) tbl

/-- The per-transaction loop of `Block.save`: set `blockHash` and call
`tx.save()` (its tamper check may throw). -/
def saveTxsGo (H : String → String) (blockHash : String) :
    List JsTransaction → List Transaction.TxRow →
    Except String (List JsTransaction × List Transaction.TxRow)
  | [], table => .ok ([], table)
  | tx :: rest, table => do
    let tx := { tx with blockHash := blockHash }
    let table ← Transaction.save H tx table
    let (txs, table) ← saveTxsGo H blockHash rest table
    .ok (tx :: txs, table)

/-- `Block.save()`: insert the block row, save every transaction (with
`blockHash` set), update balances, rebuild the Merkle tree over the
transaction hashes and persist its nodes and one proof per transaction.
An error rejects the whole call (partial writes of a failing call are
coarsened away; no claim depends on them). -/
def save (H : String → String) (b : JsBlock) (db : Db) :
    Except String (List JsTransaction × Db) := do
  let db := { db with blocks := db.blocks ++ [rowOf b] }
  let (txs, txTable) ← saveTxsGo H b.hash b.transactions db.transactions
  let db := { db with transactions := txTable }
  let db := { db with addressBalances := updateBalances db.addressBalances txs }
  let root ← MerkleTree.mkTree H (txs.map JsTransaction.hash)
  let db := { db with merkleNodes := db.merkleNodes ++ merkleNodeRows b.hash root 0 0 }
  let proofRows ← proofRowsGo b.hash root (txs.map JsTransaction.hash)
  .ok (txs, { db with merkleProofPaths := db.merkleProofPaths ++ proofRows })

end Block

/-! ## The ledger (`class Blockchain`) -/

/-- In-memory `Blockchain` state plus the database gateway. -/
structure BlockchainState where
  chain : List JsBlock
  difficulty : Nat
  pendingTransactions : List JsTransaction
  miningReward : Nat
  transactionThreshold : Nat
  db : Db
  deriving DecidableEq, Repr

namespace Blockchain

/-- The `while (pending.length >= threshold)` loop of
`minePendingTransactions`.  `mineFuel` bounds the proof-of-work search and
the outer fuel bounds the loop; `none` models a run that does not
terminate.  The `Option String` in the result is the error swallowed and
logged by the surrounding `catch` (`none` when the loop exits cleanly). -/
def minePendingGo (H : String → String) (mra : Option String)
    (now mineFuel : Nat) : Nat → BlockchainState →
    Option (BlockchainState × Option String)
  | 0, _ => none
  | fuel + 1, st =>
    if st.transactionThreshold ≤ st.pendingTransactions.length then
      -- the inner shift loop dequeues exactly `transactionThreshold` txs
      let blockTxs0 := st.pendingTransactions.take st.transactionThreshold
      let st := { st with
        pendingTransactions := st.pendingTransactions.drop st.transactionThreshold }
      let blockTxs := blockTxs0 ++
        match mra with
        | some addr => [Transaction.mkTx H none addr st.miningReward now none "" none]
        | none => []
      match st.chain.getLast? with
      | none => some (st, some "TypeError: cannot read hash of undefined")
      | some prev =>
        match Block.mkBlock H st.chain.length prev.hash now blockTxs st.difficulty with
        | .error e => some (st, some e)
        | .ok b =>
          -- defensive lineage re-check of the chain tail
          if prev.originTransactionHash ≠
              Block.calculateLastOriginTransactionHash prev.transactions then
            some (st, some "Previous block has an invalid origin transaction hash")
          else
            match Block.mineBlockGo H st.difficulty mineFuel b with
            | none => none
            | some mined =>
              let st := { st with chain := st.chain ++ [mined] }
              match Block.save H mined st.db with
              | .error e => some (st, some e)
              | .ok (_, db) =>
                minePendingGo H mra now mineFuel fuel
                  { st with db := { db with pendingTransactions := [] } }
    else some (st, none)

/-- `Blockchain.minePendingTransactions(miningRewardAddress)`.  The lock
outcome of `acquireLock("miningLock")` is the `lockAcquired` parameter;
when it is `false` the method logs and returns before the `try` block,
touching nothing. -/
def minePendingTransactions (H : String → String) (lockAcquired : Bool)
    (mra : Option String) (now mineFuel : Nat) (st : BlockchainState) :
    Option (BlockchainState × Option String) :=
  if !lockAcquired then some (st, none)
  else minePendingGo H mra now mineFuel (st.pendingTransactions.length + 1) st

end Blockchain

/-! ## Executable stand-ins for the opaque cryptographic collaborators -/

/-- Stand-in for `ec.keyFromPublic` succeeding: the model accepts every
public-key string. -/
def modelKeyOk : String → Bool := fun _ => true

/-- Stand-in signature scheme for `key.verify(digest, sig)`: the valid
signature for digest `h` under public key `pk` is the string `pk ; h`.
Like the real scheme it lets one exhibit a transaction whose signature
verifies over a chosen digest. -/
def modelVerify : String → String → String → Bool :=
  fun pk h s => s == pk ++ ";" ++ h

/-- Decidable equality for the `Except` results of the embedded fallible
operations. -/
instance {ε α : Type} [DecidableEq ε] [DecidableEq α] : DecidableEq (Except ε α)
  | .ok a, .ok b =>
      if h : a = b then .isTrue (by rw [h])
      else .isFalse (by intro hc; cases hc; exact h rfl)
  | .ok _, .error _ => .isFalse (by intro hc; cases hc)
  | .error _, .ok _ => .isFalse (by intro hc; cases hc)
  | .error e, .error f =>
      if h : e = f then .isTrue (by rw [h])
      else .isFalse (by intro hc; cases hc; exact h rfl)

/-- The error message of a failed tree construction, `none` on success. -/
def buildErrMsg : Except String JsNode → Option String
  | .error e => some e
  | .ok _ => none

/-! ## Helper lemmas -/

/-- If the mining loop returns a block, that block's hash satisfies the
exit condition `hash.substring(0, d) === "0".repeat(d)`. -/
theorem mineGo_exit (H : String → String) (d : Nat) :
    ∀ (fuel : Nat) (b b' : JsBlock), Block.mineBlockGo H d fuel b = some b' →
      Block.substring0 b'.hash d = Block.zeroTarget d
  | fuel, b, b', h => by
    unfold Block.mineBlockGo at h
    split at h
    · rename_i hcond; cases h; exact hcond
    · match fuel, h with
      | f + 1, h => exact mineGo_exit H d f _ b' h

/-- With difficulty 0 the exit condition holds on entry, so the loop body
never runs. -/
theorem mineGo_zero (H : String → String) (fuel : Nat) (b : JsBlock) :
    Block.mineBlockGo H 0 fuel b = some b := by
  unfold Block.mineBlockGo
  have h0 : Block.substring0 b.hash 0 = Block.zeroTarget 0 := rfl
  simp [h0]

/-- The pairing loop halves the node count (rounding up). -/
theorem pairUp_length (H : String → String) :
    ∀ l : List JsNode, (MerkleTree.pairUp H l).length = (l.length + 1) / 2
  | [] => by simp [MerkleTree.pairUp]
  | [_] => by simp [MerkleTree.pairUp]
  | _ :: _ :: rest => by
    simp [MerkleTree.pairUp, pairUp_length H rest]
    omega

/-- Odd-count padding adds exactly the parity of the length. -/
theorem padEven_length (l : List JsNode) :
    (MerkleTree.padEven l).length = l.length + l.length % 2 := by
  unfold MerkleTree.padEven
  split
  · rename_i hodd
    cases hl : l.getLast? with
    | some n => simp; omega
    | none =>
      have : l = [] := List.getLast?_eq_none_iff.mp hl
      subst this
      simp at hodd
  · rename_i heven
    omega

/-- A nonempty level of at most `2 ^ k` nodes finishes within `k` further
pairing rounds, hence succeeds whenever more than `k` units of gas
(`11 - depth` in the source's terms) remain. -/
theorem buildGas_isOk (H : String → String) :
    ∀ (k : Nat) (nodes : List JsNode) (gas : Nat), nodes ≠ [] →
      nodes.length ≤ 2 ^ k → k < gas →
      (MerkleTree.buildTreeRecGas H nodes gas).isOk = true := by
  intro k
  induction k with
  | zero =>
    intro nodes gas hne hlen hgas
    match gas, hgas with
    | g + 1, _ =>
      match nodes, hne, hlen with
      | [n], _, _ => rfl
      | a :: b :: rest, _, hlen => simp at hlen
  | succ k ih =>
    intro nodes gas hne hlen hgas
    obtain ⟨g, rfl⟩ : ∃ g, gas = g + 1 := ⟨gas - 1, by omega⟩
    match nodes, hne with
    | [n], _ => rfl
    | a :: b :: rest, _ =>
      show (MerkleTree.buildTreeRecGas H
        (MerkleTree.pairUp H (MerkleTree.padEven (a :: b :: rest))) g).isOk = true
      have hpl := padEven_length (a :: b :: rest)
      have hul := pairUp_length H (MerkleTree.padEven (a :: b :: rest))
      have hpow : 2 ^ (k + 1) = 2 * 2 ^ k := by ring
      apply ih
      · apply List.ne_nil_of_length_pos
        rw [hul]
        simp only [List.length_cons] at hpl ⊢
        omega
      · rw [hul]
        rw [hpow] at hlen
        simp only [List.length_cons] at hpl hlen ⊢
        omega
      · omega

/-! ## Claims -/

/-- C1: the claim says `verifyProof(leaf, proof, root)` returns the boolean
true iff iteratively combining `leaf` with the proof (smaller hash first)
yields `root`, and false otherwise.  The code instead ends with
`return root;`: at leaf `"x"`, empty proof and root `"r"` the combined
hash is `"x" ≠ "r"`, yet the call returns the string `"r"` itself (a
truthy value, not the boolean false) — the comparison is never made. -/
theorem c1_verifyProof_returns_root :
    MerkleTree.verifyProofHash modelHash "x" [] = "x" ∧
    ("x" : String) ≠ "r" ∧
    MerkleTree.verifyProof modelHash "x" [] "r" = "r" := by
  decide

/-- Transaction whose stored `hash` field is tampered while its signature
still verifies over the recomputed digest
`modelHash ("pk" ++ "to" ++ "1" ++ "null" ++ "2") = "#pkto1null2"`. -/
def c2tx : JsTransaction :=
  { fromAddress := some "pk", toAddress := "to", amount := 1, timestamp := 2,
    signature := some "pk;#pkto1null2", blockHash := "",
    originTransactionHash := none, hash := "tampered" }

/-- C2 (counterexample): `isValid()` returns true for `c2tx` although its
stored `hash` field differs from `calculateHash()`, contradicting the
claimed "true iff `calculateHash() == hash` and the signature verifies". -/
theorem c2_isValid_ignores_stored_hash_cx :
    Transaction.isValid modelHash modelKeyOk modelVerify c2tx = .ok true ∧
    c2tx.hash ≠ Transaction.calculateHash modelHash c2tx := by
  decide

/-- C2 (amended): for a transaction with non-null `fromAddress`, `isValid()`
returns true iff a non-empty signature is present, the public key parses,
and the signature verifies under `fromAddress` over the recomputed
`calculateHash()` — the stored `hash` field is not consulted; with null
`fromAddress` it returns true. -/
theorem c2_isValid_amended (H : String → String) (kOk : String → Bool)
    (vf : String → String → String → Bool) (tx : JsTransaction) :
    Transaction.isValid H kOk vf tx = .ok true ↔
      (tx.fromAddress = none ∨
        ∃ addr sig, tx.fromAddress = some addr ∧ tx.signature = some sig ∧
          sig ≠ "" ∧ kOk addr = true ∧
          vf addr (Transaction.calculateHash H tx) sig = true) := by
  unfold Transaction.isValid
  cases hfa : tx.fromAddress with
  | none => simp
  | some addr =>
    cases hsig : tx.signature with
    | none => simp
    | some sig =>
      by_cases he : sig = ""
      · simp [he]
      · by_cases hk : kOk addr
        · simp [he, hk]
        · simp [he, hk]

/-- C3: the claim says that for leaf lists of length 1–5,
`verifyProof(leaf, getProof(leaf), getRootHash())` returns true.  On the
two-leaf tree over `["a", "b"]`, `getProof` of the leaf digest does return
the sibling digest, but `verifyProof` returns the root string itself —
for every leaf, proof and root argument — so the composition yields the
root string `"##a#b"`, never the boolean true. -/
theorem c3_roundtrip_returns_root_string :
    (MerkleTree.mkTree modelHash ["a", "b"]).toOption.map
        (MerkleTree.getProof (modelHash "a")) =
      some (.ok [some (modelHash "b")]) ∧
    MerkleTree.verifyProof modelHash (modelHash "a") [some (modelHash "b")]
        "##a#b" = "##a#b" ∧
    (∀ (leaf : String) (proof : List (Option String)) (root : String),
        MerkleTree.verifyProof modelHash leaf proof root = root) :=
  ⟨by decide, rfl, fun _ _ _ => rfl⟩

/-- The `transactions` row of the C4 scenario: a reward transaction
(`from_address = null`, hence valid with no signature) carrying a non-null
`origin_transaction_hash = "X"`, whose stored hash
`modelHash ("null" ++ "G" ++ "5" ++ "X" ++ "1")` is consistent. -/
def c4txRow : Transaction.TxRow :=
  { hash := "#nullG5X1", from_address := none, to_address := "G", amount := 5,
    timestamp := 1, signature := none, block_hash := "B",
    origin_transaction_hash := some "X" }

/-- The transaction object `Transaction.load` reconstructs from
`c4txRow`. -/
def c4tx : JsTransaction :=
  { fromAddress := none, toAddress := "G", amount := 5, timestamp := 1,
    signature := none, blockHash := "B", originTransactionHash := some "X",
    hash := "#nullG5X1" }

/-- Merkle root over the single transaction hash of the C4 scenario (the
odd leaf is duplicated, then the pair is hashed). -/
def c4mroot : String := "###nullG5X1##nullG5X1"

/-- Field values of the block `Block.load` assembles in the C4 scenario
just before its hash check: `originTransactionHash` is `none` because the
constructor ran on an empty transaction list and `load` never updates the
field. -/
def c4blockVals : JsBlock :=
  { index := 3, previousHash := "p", timestamp := 2, transactions := [c4tx],
    difficulty := 0, merkleRoot := c4mroot, nonce := 7,
    originTransactionHash := none, hash := "" }

/-- The `blocks` row of the C4 scenario.  Its stored hash is chosen as the
digest `Block.load` recomputes (which renders the lost lineage field as
`"null"`), so the load-time hash check passes; the row's own
`origin_transaction_hash` column — which `Block.save` writes — is `"X"`
and is ignored by `load`. -/
def c4row : Block.BlockRow :=
  { hash := Block.calculateHash modelHash c4blockVals, previous_hash := "p",
    timestamp := 2, nonce := 7, difficulty := 0, merkle_root := c4mroot,
    index := 3, origin_transaction_hash := some "X" }

/-- The block `Block.load` returns in the C4 scenario. -/
def c4loaded : JsBlock :=
  { c4blockVals with hash := Block.calculateHash modelHash c4blockVals }

set_option maxRecDepth 40000 in
/-- C4: the claim says every block — including one reconstructed by
`Block.load` — satisfies
`originTransactionHash = calculateLastOriginTransactionHash()`.
`Block.load` resolves the crafted row to a block whose
`originTransactionHash` is null while the summary recomputed from its
transaction list is `"X"`: the invariant fails on loaded blocks because
`load` neither reads the persisted `origin_transaction_hash` column nor
recomputes the field after pushing the transactions. -/
theorem c4_load_drops_origin :
    Block.load modelHash modelKeyOk modelVerify c4row [c4txRow] = .ok c4loaded ∧
    c4loaded.originTransactionHash = none ∧
    Block.calculateLastOriginTransactionHash c4loaded.transactions = some "X" := by
  decide

/-- C5: the claim says `buildTree` combines the two children of every
parent in lexicographic order (smaller digest first), the same rule
`verifyProof` applies.  Building over `["b", "a"]` yields the parent
`Digest(H(b) ++ H(a))` — the children in positional order — whereas the
`verifyProof` combination step on the same two digests produces
`Digest(H(a) ++ H(b))`, and the two differ: construction is positional,
verification is sorted. -/
theorem c5_buildTree_positional_concat :
    (MerkleTree.buildTree modelHash ["b", "a"]).toOption.map JsNode.value =
      some (modelHash (modelHash "b" ++ modelHash "a")) ∧
    MerkleTree.combineStep modelHash (modelHash "b") (some (modelHash "a")) =
      modelHash (modelHash "a" ++ modelHash "b") ∧
    modelHash (modelHash "b" ++ modelHash "a") ≠
      modelHash (modelHash "a" ++ modelHash "b") := by
  refine ⟨by decide, ?_, by decide⟩
  have hnl : ¬ (modelHash "b" < modelHash "a") := by
    show ¬ (("#b" : String) < "#a")
    rw [String.lt_iff_toList_lt]
    decide
  simp [MerkleTree.combineStep, hnl]

/-- C6: whenever `mineBlock(d)` terminates, the resulting block's hash
begins with (at least) `d` zero characters, and for `d = 0` the loop body
never executes, so the block — in particular the `nonce = 0` and the hash
set by the constructor — is returned unchanged. -/
theorem c6_mineBlock_pow (H : String → String) (d fuel : Nat) (b b' : JsBlock)
    (hmine : Block.mineBlockGo H d fuel b = some b') :
    b'.hash.data.take d = List.replicate d '0' ∧ (d = 0 → b' = b) := by
  constructor
  · have h := mineGo_exit H d fuel b b' hmine
    have := congrArg String.data h
    simpa [Block.substring0, Block.zeroTarget] using this
  · intro hd
    subst hd
    rw [mineGo_zero H fuel b] at hmine
    cases hmine
    rfl

/-- A concrete constructed block (nonce 0) for the C6 witness. -/
def c6blk : JsBlock :=
  { index := 0, previousHash := "p", timestamp := 1, transactions := [],
    difficulty := 0, merkleRoot := "m", nonce := 0,
    originTransactionHash := none, hash := "h" }

/-- C6 witness: mining `c6blk` at difficulty 0 returns it unchanged. -/
theorem c6_mineBlock_pow_witness :
    c6blk.hash.data.take 0 = List.replicate 0 '0' ∧ (0 = 0 → c6blk = c6blk) :=
  c6_mineBlock_pow modelHash 0 5 c6blk c6blk (by decide)

/-- C7: the claim says `getProof(leafValue)` fails with a leaf-not-found
error whenever `leafValue` matches no leaf.  On the tree built from
`["a", "b"]`, the value `"zzz"` matches no node at all, yet `getProof`
returns the two-element list of the root's children instead of an error:
the throw fires only when the collected list is empty, which cannot
happen on a tree produced by `buildTree` (its root always has two
children). -/
theorem c7_getProof_no_error_on_missing_leaf :
    (MerkleTree.mkTree modelHash ["a", "b"]).toOption.map
        (MerkleTree.getProof "zzz") =
      some (.ok [some (modelHash "a"), some (modelHash "b")]) ∧
    ("zzz" ≠ modelHash "a" ∧ "zzz" ≠ modelHash "b") := by
  decide

/-- C8: when `acquireLock` fails at the start of
`minePendingTransactions`, the call returns cleanly (`none` logged error)
with the entire ledger state — chain, in-memory pending queue, and every
database table — exactly as before the call. -/
theorem c8_lock_failure_no_mutation (H : String → String) (mra : Option String)
    (now mineFuel : Nat) (st : BlockchainState) :
    Blockchain.minePendingTransactions H false mra now mineFuel st =
      some (st, none) := rfl

set_option maxRecDepth 10000 in
/-- C9 (counterexample): the claim says the depth-exceeded branch of
`buildTreeRec` is unreachable for well-formed input of any size, but on
1025 well-formed leaves the levels exceed the hard-coded `maxDepth = 10`
and `buildTree` throws the overflow error. -/
theorem c9_overflow_at_1025_cx :
    buildErrMsg (MerkleTree.buildTree modelHash (List.replicate 1025 "a")) =
      some "Max recursion depth exceeded" ∧
    (List.replicate 1025 "a").length = 1025 := by
  constructor
  · decide
  · simp

/-- C9 (amended): `buildTree` succeeds without the overflow error for
every non-empty well-formed input of at most `1024 = 2 ^ 10` leaves — the
sizes the fixed bound `maxDepth = 10` accommodates — while for 1025 or
more leaves the depth-exceeded branch is reachable. -/
theorem c9_buildTree_ok_up_to_1024 (H : String → String) (values : List String)
    (h1 : 0 < values.length) (h2 : values.length ≤ 1024) :
    (MerkleTree.buildTree H values).isOk = true := by
  unfold MerkleTree.buildTree MerkleTree.buildTreeRec
  apply buildGas_isOk H 10
  · apply List.ne_nil_of_length_pos
    have hpe := padEven_length (MerkleTree.leafNodes H values)
    have hl : (MerkleTree.leafNodes H values).length = values.length := by
      simp [MerkleTree.leafNodes]
    omega
  · have hpe := padEven_length (MerkleTree.leafNodes H values)
    have hl : (MerkleTree.leafNodes H values).length = values.length := by
      simp [MerkleTree.leafNodes]
    have h1024 : (2 : Nat) ^ 10 = 1024 := by norm_num
    omega
  · norm_num

/-- C9 witness: a three-leaf build succeeds. -/
theorem c9_buildTree_ok_witness :
    0 < (["a", "b", "c"] : List String).length ∧
    (["a", "b", "c"] : List String).length ≤ 1024 ∧
    (MerkleTree.buildTree modelHash ["a", "b", "c"]).isOk = true :=
  ⟨by decide, by decide,
    c9_buildTree_ok_up_to_1024 modelHash ["a", "b", "c"] (by decide) (by decide)⟩

/-- C10: for a transaction whose stored `hash` disagrees with
`calculateHash()`, `Transaction.save()` raises the hash-mismatch error
synchronously — before the `INSERT` is issued — so the transactions table
is left untouched (the error result carries no write). -/
theorem c10_save_rejects_tampered (H : String → String) (tx : JsTransaction)
    (table : List Transaction.TxRow)
    (h : tx.hash ≠ Transaction.calculateHash H tx) :
    Transaction.save H tx table =
      .error "Transaction hash does not match expected hash!" := by
  unfold Transaction.save Transaction.verifyTransaction
  rw [if_pos h]
  rfl

/-- A transaction with a tampered stored hash for the C10 witness. -/
def c10tx : JsTransaction :=
  { fromAddress := some "f", toAddress := "t", amount := 1, timestamp := 2,
    signature := some "s", blockHash := "", originTransactionHash := none,
    hash := "bad" }

/-- C10 witness: saving the tampered `c10tx` against an empty table is
rejected with the hash-mismatch error. -/
theorem c10_save_rejects_tampered_witness :
    Transaction.save modelHash c10tx [] =
      .error "Transaction hash does not match expected hash!" :=
  c10_save_rejects_tampered modelHash c10tx [] (by decide)

end AIBTCC
